import Mathlib

/-!
A verification development for the yt-to-deemix session orchestration engine.

Go code is embedded shallowly:

* Go strings are modelled as `String` / `List Char` (the sources in question
  operate on ASCII data; byte-level and rune-level views coincide there).
* Go `float64` arithmetic in the confidence scorer is modelled by exact
  rational arithmetic (`ℚ`); `int(x)` conversion is truncation toward zero.
* Go machine integers are modelled by `Int` (counters may go negative).
* Fallible operations return `Except`; external collaborators (yt-dlp,
  Deemix, Navidrome) are parameters of the embedded functions.
* The engine's lock-protected critical sections become atomic steps of the
  embedded functions and transition systems.
-/

namespace YtToDeemix

/-! ## Go string primitives

`unicode.IsSpace` (used by `strings.TrimSpace`) and the RE2 character class
`\s` (which is `[\t\n\f\r ]` only) are distinct predicates in Go; both are
modelled.  `strings.ToLower` is modelled with the ASCII case mapping (the
data exercised by the claims is ASCII). -/

/-- Model of Go `unicode.IsSpace` (the whitespace set used by `strings.TrimSpace`). -/
def isGoSpace (c : Char) : Bool :=
  c = ' ' || c = '\t' || c = '\n' || c = '\x0b' || c = '\x0c' || c = '\r' ||
  c = '\u0085' || c = ' '

/-- Model of the RE2 character class `\s`, which is exactly `[\t\n\f\r ]`. -/
def isRegexSpace (c : Char) : Bool :=
  c = '\t' || c = '\n' || c = '\x0c' || c = '\r' || c = ' '

/-- Model of Go `strings.ToLower` restricted to the ASCII case mapping. -/
def goToLower (s : List Char) : List Char := s.map Char.toLower

/-- Model of Go `strings.TrimSpace`. -/
def goTrimSpace (s : List Char) : List Char :=
  ((s.dropWhile isGoSpace).reverse.dropWhile isGoSpace).reverse

/-- Go conversion `int(x)` for a rational operand: truncation toward zero. -/
def goTrunc (q : ℚ) : ℤ := if 0 ≤ q then ⌊q⌋ else ⌈q⌉

/-! ## `internal/sync/confidence.go` — `levenshtein`

The source computes the edit distance with a two-row dynamic program:

    prev := [0, 1, ..., lb]
    for i := 1; i <= la; i++ {
        curr[0] = i
        for j := 1; j <= lb; j++ {
            cost := 1; if a[i-1] == b[j-1] { cost = 0 }
            curr[j] = min(curr[j-1]+1, min(prev[j]+1, prev[j-1]+cost))
        }
        prev, curr = curr, prev
    }
    return prev[lb]

`levRowStep x b prev left` computes `curr[1..lb]` for the row whose character
is `x`, given the previous row `prev = prev[0..lb]` and `left = curr[0]`. -/

def levRowStep (x : Char) : List Char → List Nat → Nat → List Nat
  | y :: ys, p0 :: p1 :: ps, left =>
      let cost : Nat := if x = y then 0 else 1
      let v := min (left + 1) (min (p1 + 1) (p0 + cost))
      v :: levRowStep x ys (p1 :: ps) v
  | _, _, _ => []

/-- The outer loop of the dynamic program: consume the characters of `a`
(one row per character), threading the previous row and the row index. -/
def levRows (b : List Char) : List Char → List Nat → Nat → List Nat
  | [], prev, _ => prev
  | x :: xs, prev, i => levRows b xs (i :: levRowStep x b prev i) (i + 1)

/-- `levenshtein` from `internal/sync/confidence.go` (edit distance, unit costs). -/
def levenshtein (a b : List Char) : Nat :=
  if a = [] then b.length
  else if b = [] then a.length
  else ((levRows b a (List.range (b.length + 1)) 1).getLast?).getD 0

/-- `similarity` from `internal/sync/confidence.go`:
normalized similarity in `[0, 1]` based on `levenshtein` (the source's local
variable `maxLen` is inlined). -/
def similarity (a b : List Char) : ℚ :=
  if a = b then 1
  else if max a.length b.length = 0 then 1
  else 1 - (levenshtein a b : ℚ) / ((max a.length b.length : ℕ) : ℚ)

/-- Normalisation applied by `calculateConfidence` to each argument:
`strings.ToLower` then `strings.TrimSpace`. -/
def normStr (s : String) : List Char := goTrimSpace (goToLower s.toList)

/-- `calculateConfidence` from `internal/sync/confidence.go`, with Go float64
arithmetic modelled by exact rational arithmetic (the source's local variables
`titleSim`, `artistSim`, `combined` are inlined). -/
def calculateConfidence (parsedArtist parsedSong resultArtist resultTitle : String) : ℤ :=
  if normStr parsedArtist = [] then
    goTrunc (similarity (normStr parsedSong) (normStr resultTitle) * 60)
  else
    goTrunc ((similarity (normStr parsedArtist) (normStr resultArtist) * (0.4 : ℚ) +
              similarity (normStr parsedSong) (normStr resultTitle) * (0.6 : ℚ)) * 100)

/-- The claim's specification of the similarity function:
`sim(a,b) = 1 − levenshtein(a,b) / max(|a|,|b|)`, with `sim("","") = 1`. -/
def simSpec (a b : List Char) : ℚ :=
  if max a.length b.length = 0 then 1
  else 1 - (levenshtein a b : ℚ) / ((max a.length b.length : ℕ) : ℚ)

/-! ## `internal/parser/parser.go`

The Go title parser is built from RE2 regular expressions with leftmost-first
(Perl-priority) matching.  Each regex is embedded as a matcher of type
`RegP := List Char → List (List Char)`: applied at a position, a matcher
returns the possible remainders after a match starting there, ordered by the
regex engine's backtracking priority, so the head of the list is the match
RE2 selects.  Literals compare case-insensitively, embedding the `(?i)` flag.
RE2's `.` does not match a newline; the matchers below let the dot-groups
range over arbitrary characters, which agrees on all newline-free titles. -/

def RegP : Type := List Char → List (List Char)

/-- Case-insensitive literal match of `lit` against a prefix of the input. -/
def litMatch : List Char → List Char → Option (List Char)
  | [], s => some s
  | _ :: _, [] => none
  | l :: ls, c :: cs => if c.toLower = l.toLower then litMatch ls cs else none

def pLit (lit : String) : RegP := fun s =>
  match litMatch lit.toList s with
  | some r => [r]
  | none => []

def pSeq (p q : RegP) : RegP := fun s => (p s).bind q

def pAlt2 (p q : RegP) : RegP := fun s => p s ++ q s

def pAlts (ps : List RegP) : RegP := fun s => ps.bind (fun p => p s)

/-- Greedy `?`: with the content first, then without. -/
def pOpt (p : RegP) : RegP := fun s => p s ++ [s]

/-- Greedy `*` over a character class: longest consumption first. -/
def pStar (pred : Char → Bool) : RegP := fun s =>
  let n := (s.takeWhile pred).length
  (List.range (n + 1)).map (fun d => s.drop (n - d))

/-- Greedy `+` over a character class: longest consumption first, at least one. -/
def pPlus (pred : Char → Bool) : RegP := fun s =>
  let n := (s.takeWhile pred).length
  (List.range n).map (fun d => s.drop (n - d))

def pChar (pred : Char → Bool) : RegP := fun s =>
  match s with
  | c :: r => if pred c then [r] else []
  | [] => []

def pWS : RegP := pStar isRegexSpace

def pWS1 : RegP := pPlus isRegexSpace

/-- The class `[^\)\]]*`. -/
def pNoBr : RegP := pStar (fun c => !(c = ')' || c = ']'))

/-- The alternatives inside `suffixPatterns` (in source order). -/
def suffixAlt : RegP := pAlts [
  pSeq (pLit "official") (pSeq pWS
    (pSeq (pOpt (pAlt2 (pSeq (pLit "music") pWS) (pSeq (pLit "lyric") pWS))) (pLit "video"))),
  pSeq (pLit "official") (pSeq pWS (pLit "audio")),
  pSeq (pLit "lyric") (pSeq (pOpt (pLit "s")) (pSeq pWS (pOpt (pLit "video")))),
  pLit "audio",
  pLit "hd",
  pLit "hq",
  pLit "4k",
  pSeq (pLit "music") (pSeq pWS (pLit "video")),
  pSeq (pLit "lyric") (pSeq pWS (pLit "video")),
  pLit "mv",
  pSeq (pLit "visuali") (pSeq (pAlt2 (pLit "s") (pLit "z")) (pLit "er")),
  pLit "live",
  pLit "remix",
  pSeq (pLit "feat") (pSeq (pOpt (pLit ".")) pNoBr),
  pSeq (pLit "ft") (pSeq (pOpt (pLit ".")) pNoBr),
  pSeq (pLit "prod") (pSeq (pOpt (pLit ".")) pNoBr),
  pSeq (pLit "video") (pSeq pWS (pLit "oficial"))]

/-- `suffixPatterns`: `(?i)\s*[\(\[]( ... )[\)\]]`. -/
def suffixPat : RegP :=
  pSeq pWS (pSeq (pChar fun c => c = '(' || c = '[')
    (pSeq suffixAlt (pChar fun c => c = ')' || c = ']')))

def matchAt (p : RegP) (s : List Char) : Option (List Char) := (p s).head?

/-- `ReplaceAllString(s, "")`: scan left to right, removing every leftmost
non-overlapping match (all patterns used here match at least one character;
the fuel argument is the input length plus one). -/
def scanStrip (p : RegP) : Nat → List Char → List Char
  | 0, s => s
  | _ + 1, [] => []
  | fuel + 1, c :: cs =>
    match matchAt p (c :: cs) with
    | some r => scanStrip p fuel r
    | none => c :: scanStrip p fuel cs

/-- `ReplaceAllString(s, "")` for a `$`-anchored pattern: drop the suffix
starting at the earliest position where the pattern matches to the end. -/
def stripEndFrom (p : RegP) : List Char → List Char
  | [] => []
  | c :: cs =>
    if (p (c :: cs)).any List.isEmpty then []
    else c :: stripEndFrom p cs

def isTrailDash (c : Char) : Bool := c = '-' || c = '–' || c = '—' || c = '|'

/-- The token alternatives of `trailingNoise` (in source order). -/
def trailTokens : RegP := pAlts [
  pSeq (pLit "official") (pSeq pWS (pSeq (pOpt (pSeq (pLit "music") pWS)) (pLit "video"))),
  pSeq (pLit "official") (pSeq pWS (pLit "audio")),
  pSeq (pLit "lyric") (pSeq (pOpt (pLit "s")) (pSeq pWS (pOpt (pLit "video")))),
  pLit "audio",
  pLit "hd",
  pLit "hq",
  pLit "4k",
  pSeq (pLit "music") (pSeq pWS (pLit "video")),
  pLit "mv",
  pSeq (pLit "visuali") (pSeq (pAlt2 (pLit "s") (pLit "z")) (pLit "er"))]

/-- `trailingNoise`: `(?i)\s*[-–—|]\s*( ... )\s*$` (the trailing `$` is
enforced by `stripEndFrom`, which keeps only candidates with empty remainder). -/
def trailPat : RegP :=
  pSeq pWS (pSeq (pChar isTrailDash) (pSeq pWS (pSeq trailTokens pWS)))

/-- `topicSuffix`: `(?i)\s*-\s*topic\s*$`. -/
def topicPat : RegP :=
  pSeq pWS (pSeq (pChar (· = '-')) (pSeq pWS (pSeq (pLit "topic") pWS)))

/-- `extraWhitespace`: replace every run of two or more `\s` characters by a
single space (fuel is the input length plus one). -/
def collapseWS : Nat → List Char → List Char
  | 0, s => s
  | _ + 1, [] => []
  | fuel + 1, c :: cs =>
    if isRegexSpace c then
      let n := ((c :: cs).takeWhile isRegexSpace).length
      if 2 ≤ n then ' ' :: collapseWS fuel ((c :: cs).drop n)
      else c :: collapseWS fuel cs
    else c :: collapseWS fuel cs

/-- `clean` from `internal/parser/parser.go`. -/
def clean (title : List Char) : List Char :=
  let s1 := scanStrip suffixPat (title.length + 1) title
  let s2 := stripEndFrom trailPat s1
  let s3 := stripEndFrom topicPat s2
  let s4 := collapseWS (s3.length + 1) s3
  goTrimSpace s4

/-- RE2 `\b` word characters: `[0-9A-Za-z_]`. -/
def isWordChar (c : Char) : Bool := c.isAlphanum || c = '_'

def featLits : RegP :=
  pAlt2 (pSeq (pLit "feat") (pOpt (pLit "."))) (pSeq (pLit "ft") (pOpt (pLit ".")))

/-- A match of `featPattern` `(?i)\s*\b(feat\.?|ft\.?)\s+` starting at the
current position; `prevIsWord` says whether the character before the current
position is a word character (for the `\b` when `\s*` consumes nothing —
after at least one consumed space the boundary always holds). -/
def featMatchAt (prevIsWord : Bool) (s : List Char) : Option (List Char) :=
  let n := (s.takeWhile isRegexSpace).length
  ((List.range (n + 1)).bind (fun d =>
    let k := n - d
    if k = 0 && prevIsWord then []
    else (pSeq featLits pWS1) (s.drop k))).head?

/-- `featPattern.ReplaceAllString(s, " feat. ")`: scan left to right; after a
replacement the scan resumes after the matched span, whose last character is
whitespace, so the boundary context becomes non-word. -/
def featReplace : Nat → Bool → List Char → List Char
  | 0, _, s => s
  | _ + 1, _, [] => []
  | fuel + 1, prevW, c :: cs =>
    match featMatchAt prevW (c :: cs) with
    | some r => ' ' :: 'f' :: 'e' :: 'a' :: 't' :: '.' :: ' ' :: featReplace fuel false r
    | none => c :: featReplace fuel (isWordChar c) cs

/-- `normalizeFeat` from `internal/parser/parser.go`. -/
def normalizeFeat (s : List Char) : List Char :=
  goTrimSpace (featReplace (s.length + 1) false s)

/-- The delimiter list of the source, in priority order. -/
def delimiterStrs : List (List Char) :=
  [" - ".toList, " – ".toList, " — ".toList, " | ".toList, " ~ ".toList]

/-- `strings.Index`: position of the first occurrence of `needle`, if any. -/
def idxOfSub (needle : List Char) : List Char → Option Nat
  | [] => if needle.isEmpty then some 0 else none
  | s@(_ :: cs) =>
    if needle.isPrefixOf s then some 0
    else (idxOfSub needle cs).map (· + 1)

/-- The delimiter-splitting loop of `Parse`: for each delimiter in order,
look at the first occurrence only; accept it if it is at a positive index and
both trimmed sides are non-empty. -/
def tryDelims : List (List Char) → List Char → Option (List Char × List Char)
  | [], _ => none
  | d :: ds, cleaned =>
    match idxOfSub d cleaned with
    | some idx =>
      if 0 < idx then
        let a := goTrimSpace (cleaned.take idx)
        let s := goTrimSpace (cleaned.drop (idx + d.length))
        if a ≠ [] ∧ s ≠ [] then
          some (normalizeFeat (goTrimSpace (stripEndFrom topicPat a)), normalizeFeat s)
        else tryDelims ds cleaned
      else tryDelims ds cleaned
    | none => tryDelims ds cleaned

def isOpenQuote (c : Char) : Bool := c = '"' || c = '“'

def isCloseQuote (c : Char) : Bool := c = '"' || c = '”'

def lastIsCloseQuote (l : List Char) : Bool :=
  match l.getLast? with
  | some q => isCloseQuote q
  | none => false

/-- `quotedPattern` `^(.+?)\s+["“](.+?)["”]$`: the lazy first group grows one
character at a time (`g1rev` holds it reversed); for each split the rest must
be whitespace, an opening quote, a non-empty body, and a closing quote as the
very last character. -/
def quotedLoop : List Char → List Char → Option (List Char × List Char)
  | _, [] => none
  | g1rev, c :: cs =>
    let rest := c :: cs
    let w := (rest.takeWhile isRegexSpace).length
    if 1 ≤ w then
      match rest.drop w with
      | q :: tail =>
        if isOpenQuote q ∧ tail.dropLast ≠ [] ∧ lastIsCloseQuote tail then
          some (g1rev.reverse, tail.dropLast)
        else quotedLoop (c :: g1rev) cs
      | [] => quotedLoop (c :: g1rev) cs
    else quotedLoop (c :: g1rev) cs

def quotedSplit (s : List Char) : Option (List Char × List Char) :=
  match s with
  | [] => none
  | c :: cs => quotedLoop [c] cs

/-- `byPattern` `(?i)^(.+?)\s+by\s+(.+)$`: lazy first group, greedy
whitespace, case-insensitive `by`, greedy whitespace, then a non-empty rest
(backing off one whitespace character when nothing else remains, as the
regex engine does for the final `(.+)`). -/
def byLoop : List Char → List Char → Option (List Char × List Char)
  | _, [] => none
  | g1rev, c :: cs =>
    let rest := c :: cs
    let w := (rest.takeWhile isRegexSpace).length
    if 1 ≤ w then
      match rest.drop w with
      | b :: y :: tail =>
        if b.toLower = 'b' ∧ y.toLower = 'y' then
          let w2 := (tail.takeWhile isRegexSpace).length
          if 1 ≤ w2 then
            if tail.drop w2 ≠ [] then some (g1rev.reverse, tail.drop w2)
            else if 2 ≤ w2 then some (g1rev.reverse, tail.drop (w2 - 1))
            else byLoop (c :: g1rev) cs
          else byLoop (c :: g1rev) cs
        else byLoop (c :: g1rev) cs
      | _ => byLoop (c :: g1rev) cs
    else byLoop (c :: g1rev) cs

def bySplit (s : List Char) : Option (List Char × List Char) :=
  match s with
  | [] => none
  | c :: cs => byLoop [c] cs

/-- `Parse` from `internal/parser/parser.go`. -/
def Parse (title : String) : String × String :=
  let cleaned := clean title.toList
  match tryDelims delimiterStrs cleaned with
  | some (a, s) => (String.mk a, String.mk s)
  | none =>
    let quotedRes :=
      match quotedSplit cleaned with
      | some (m1, m2) =>
        let a := goTrimSpace m1
        let s := goTrimSpace m2
        if a ≠ [] ∧ s ≠ [] then some (normalizeFeat a, normalizeFeat s) else none
      | none => none
    match quotedRes with
    | some (a, s) => (String.mk a, String.mk s)
    | none =>
      let byRes :=
        match bySplit cleaned with
        | some (m1, m2) =>
          let s := goTrimSpace m1
          let a := goTrimSpace m2
          if a ≠ [] ∧ s ≠ [] then some (normalizeFeat a, normalizeFeat s) else none
        | none => none
      match byRes with
      | some (a, s) => (String.mk a, String.mk s)
      | none => ("", String.mk (normalizeFeat cleaned))

/-! ## `internal/sync` — shared session types

The stringly-typed Go statuses are kept as strings.  Go `int` counters are
modelled by `Int` (they may be decremented below zero). -/

structure SearchResult where
  id : Int
  title : String
  artist : String
  album : String
  duration : Int
  link : String
deriving DecidableEq

structure NavResult where
  id : String
  title : String
  artist : String
deriving DecidableEq

structure Track where
  youTubeTitle : String
  parsedArtist : String
  parsedSong : String
  deezerMatch : Option SearchResult
  status : String
  confidence : Int
  selected : Bool
deriving DecidableEq

structure Progress where
  total : Int
  searched : Int
  queued : Int
  notFound : Int
  skipped : Int
  needsReview : Int
  selected : Int
deriving DecidableEq

structure Session where
  id : String
  url : String
  status : String
  error : String
  tracks : List Track
  progress : Progress
  bitrate : Int
  checkNavidrome : Bool
deriving DecidableEq

def StatusFetching : String := "fetching"

def StatusParsing : String := "parsing"

def StatusSearching : String := "searching"

def StatusChecking : String := "checking"

def StatusReady : String := "ready"

def StatusDownloading : String := "downloading"

def StatusDone : String := "done"

def StatusError : String := "error"

/-- Modelled from the spec: the constant `StatusPaused` is used by the
pipeline but its declaration is not among the sources; the spec's session
status vocabulary fixes its wire value to "paused". -/
def StatusPaused : String := "paused"

/-- Modelled from the spec: the constant `StatusCanceled` is used by the
pipeline but its declaration is not among the sources; the spec's session
status vocabulary fixes its wire value to "canceled". -/
def StatusCanceled : String := "canceled"

def TrackPending : String := "pending"

def TrackSearching : String := "searching"

def TrackFound : String := "found"

def TrackNotFound : String := "not_found"

def TrackSkipped : String := "skipped"

def TrackNeedsReview : String := "needs_review"

def TrackQueued : String := "queued"

def TrackError : String := "error"

/-- Modelled from the spec: the constant `TrackDownloaded` used by `Download`
is not declared among the sources; the spec's track status vocabulary and its
design note ("treat `queued` as the single post-AddToQueue terminal state"),
together with the repository's own test expecting status `TrackQueued` after a
download, fix its wire value to "queued". -/
def TrackDownloaded : String := "queued"

/-- Error kinds of the sync package (`errors.New` sentinels; the variants
`sessionPaused`, `sessionNotPaused` and `sessionCanceled` are used by the
pipeline but declared outside the sources — modelled from the spec's error
table).  `searchFailed` stands for a downloader error surfaced by
`SearchTrack`, and `ctxCanceled` for a `ctx.Err()` returned by `Download`. -/
inductive SyncErr where
  | sessionNotFound
  | sessionNotReady
  | trackNotFound
  | sessionPaused
  | sessionNotPaused
  | sessionCanceled
  | searchFailed
  | ctxCanceled
deriving DecidableEq

/-! ## `src/unnamed/part_003` — the session pipeline

The Go `Pipeline` holds the session map and the configuration; the external
clients (`ytClient`, `deemixClient`, `navidromeClient`) become function
parameters of the embedded operations.  The reader/writer lock makes each
critical section atomic; the embedded operations perform the same sequence of
critical sections on explicit state. -/

structure Pipeline where
  sessions : List (String × Session)
  confidenceThreshold : Int
deriving DecidableEq

def DefaultConfidenceThreshold : Int := 70

def lookupSession (p : Pipeline) (sessionID : String) : Option Session :=
  (p.sessions.find? (fun e => e.1 == sessionID)).map (fun e => e.2)

def storeSession (p : Pipeline) (sessionID : String) (s : Session) : Pipeline :=
  { p with sessions := p.sessions.map (fun e => if e.1 == sessionID then (e.1, s) else e) }

def setTrack (s : Session) (i : Nat) (t : Track) : Session :=
  { s with tracks := s.tracks.set i t }

/-- `setError` from `src/unnamed/part_003`. -/
def setError (s : Session) (msg : String) : Session :=
  { s with status := StatusError, error := msg }

/-- `buildQuery` from `src/unnamed/part_003`. -/
def buildQuery (artist song : String) : String :=
  if artist = "" then song else artist ++ " " ++ song

/-- `updateProgressForStatusChange` from `src/unnamed/part_003` (lines
590–617): adjust the progress counters for a track status change.  Note that
the `selected` counter is only ever decremented (when `wasSelected`), never
incremented. -/
def updateProgressForStatusChange (session : Session) (oldStatus newStatus : String)
    (wasSelected : Bool) : Session :=
  if oldStatus = newStatus then session
  else
    let pr := session.progress
    let pr :=
      if oldStatus = TrackNotFound then { pr with notFound := pr.notFound - 1 }
      else if oldStatus = TrackNeedsReview then { pr with needsReview := pr.needsReview - 1 }
      else if oldStatus = TrackSkipped then { pr with skipped := pr.skipped - 1 }
      else pr
    let pr := if wasSelected then { pr with selected := pr.selected - 1 } else pr
    let pr :=
      if newStatus = TrackNotFound then { pr with notFound := pr.notFound + 1 }
      else if newStatus = TrackNeedsReview then { pr with needsReview := pr.needsReview + 1 }
      else if newStatus = TrackSkipped then { pr with skipped := pr.skipped + 1 }
      else pr
    { session with progress := pr }

/-- `SetTrackSelected` from `src/unnamed/part_003` (lines 479–508). -/
def SetTrackSelected (p : Pipeline) (sessionID : String) (trackIndex : Int)
    (selected : Bool) : Except SyncErr Pipeline :=
  match lookupSession p sessionID with
  | none => .error .sessionNotFound
  | some session =>
    if session.status ≠ StatusReady then .error .sessionNotReady
    else if trackIndex < 0 ∨ (session.tracks.length : Int) ≤ trackIndex then
      .error .trackNotFound
    else
      match session.tracks.get? trackIndex.toNat with
      | none => .error .trackNotFound
      | some track =>
        if track.selected = selected then .ok p
        else
          let track1 := { track with selected := selected }
          let pr := session.progress
          let pr1 :=
            if selected then { pr with selected := pr.selected + 1 }
            else { pr with selected := pr.selected - 1 }
          .ok (storeSession p sessionID
            { session with
              tracks := session.tracks.set trackIndex.toNat track1,
              progress := pr1 })

/-- `SearchTrack` from `src/unnamed/part_003` (lines 512–586).  The Deemix
and Navidrome clients are the function parameters `dxSearch` and `navSearch`;
`navEnabled` models `p.navidromeClient != nil`.  The source re-reads the
track after re-acquiring the lock; in this sequential model it is unchanged. -/
def SearchTrack (dxSearch : String → Except Unit (List SearchResult))
    (navSearch : String → String → Except Unit (List NavResult))
    (navEnabled : Bool) (p : Pipeline) (sessionID : String) (trackIndex : Int)
    (query : String) : Except SyncErr Pipeline :=
  match lookupSession p sessionID with
  | none => .error .sessionNotFound
  | some session =>
    if session.status ≠ StatusReady then .error .sessionNotReady
    else if trackIndex < 0 ∨ (session.tracks.length : Int) ≤ trackIndex then
      .error .trackNotFound
    else
      match session.tracks.get? trackIndex.toNat with
      | none => .error .trackNotFound
      | some track =>
        let checkNavidrome := session.checkNavidrome
        let searchQuery := buildQuery track.parsedArtist query
        match dxSearch searchQuery with
        | .error _ => .error .searchFailed
        | .ok results =>
          let existsInNavidrome :=
            match results with
            | [] => false
            | m :: _ =>
              if navEnabled && checkNavidrome then
                match navSearch m.artist m.title with
                | .ok navResults => decide (navResults ≠ [])
                | .error _ => false
              else false
          let prevStatus := track.status
          match results with
          | [] =>
            let track1 := { track with deezerMatch := none, confidence := 0 }
            if prevStatus ≠ TrackNotFound then
              let session1 :=
                updateProgressForStatusChange session prevStatus TrackNotFound track1.selected
              let track2 := { track1 with status := TrackNotFound, selected := false }
              .ok (storeSession p sessionID (setTrack session1 trackIndex.toNat track2))
            else
              .ok (storeSession p sessionID (setTrack session trackIndex.toNat track1))
          | m :: _ =>
            let track1 := { track with
              deezerMatch := some m,
              confidence :=
                calculateConfidence track.parsedArtist track.parsedSong m.artist m.title }
            let snew :=
              if existsInNavidrome then (TrackSkipped, { track1 with selected := false })
              else if p.confidenceThreshold ≤ track1.confidence then
                (TrackFound, { track1 with selected := true })
              else (TrackNeedsReview, { track1 with selected := false })
            let track2 := { snew.2 with status := snew.1 }
            let session1 := updateProgressForStatusChange session prevStatus snew.1 false
            .ok (storeSession p sessionID (setTrack session1 trackIndex.toNat track2))

/-- The loop body of `Download` (lines 439–467): iterate the tracks in index
order; at the top of each iteration `checkpoint` observes cancellation
(`cancelAt i` models `ctx.Done()` at iteration `i`; pause signals are absent).
Besides the updated session, the returned triple collects the `AddToQueue`
calls made (in order) and whether the loop aborted on cancellation. -/
def downloadLoop (addToQueue : String → Int → Bool) (cancelAt : Nat → Bool) :
    List Track → Nat → Session → Session × List String × Bool
  | [], _, session => ({ session with status := StatusDone }, [], false)
  | _ :: rest, i, session =>
    if cancelAt i then
      (if session.status ≠ StatusCanceled then setError session "canceled" else session,
       [], true)
    else
      match session.tracks.get? i with
      | none => downloadLoop addToQueue cancelAt rest (i + 1) session
      | some track =>
        if ¬track.selected then downloadLoop addToQueue cancelAt rest (i + 1) session
        else
          match track.deezerMatch with
          | none => downloadLoop addToQueue cancelAt rest (i + 1) session
          | some m =>
            let ok := addToQueue m.link session.bitrate
            let track1 :=
              if ok then { track with status := TrackDownloaded }
              else { track with status := TrackError }
            let session1 :=
              if ok then
                { session with
                  tracks := session.tracks.set i track1,
                  progress := { session.progress with queued := session.progress.queued + 1 } }
              else { session with tracks := session.tracks.set i track1 }
            let out := downloadLoop addToQueue cancelAt rest (i + 1) session1
            (out.1, m.link :: out.2.1, out.2.2)

/-- `Download` from `src/unnamed/part_003` (lines 414–475).  Returns the
updated pipeline (the session is mutated in place in the source, so its
partial updates persist even on an error), the ordered list of `AddToQueue`
links, and the error result. -/
def Download (addToQueue : String → Int → Bool) (cancelAt : Nat → Bool)
    (p : Pipeline) (sessionID : String) : Pipeline × List String × Option SyncErr :=
  match lookupSession p sessionID with
  | none => (p, [], some .sessionNotFound)
  | some session =>
    if session.status ≠ StatusReady then (p, [], some .sessionNotReady)
    else
      let session1 := { session with status := StatusDownloading }
      let out := downloadLoop addToQueue cancelAt session1.tracks 0 session1
      (storeSession p sessionID out.1, out.2.1,
       if out.2.2 then some .ctxCanceled else none)

/-! ### The analysis workflow `run` (lines 115–254) -/

structure PlaylistEntry where
  title : String
  videoID : String
  url : String
  artist : String
  track : String
  channel : String
deriving DecidableEq

/-- The parse-phase body (lines 128–153): prefer the structured yt-dlp
artist/track metadata, falling back to the title parser. -/
def parseEntryTrack (e : PlaylistEntry) : Track :=
  let pair :=
    if e.artist ≠ "" then
      (e.artist, if e.track ≠ "" then e.track else e.title)
    else
      Parse e.title
  { youTubeTitle := e.title, parsedArtist := pair.1, parsedSong := pair.2,
    deezerMatch := none, status := TrackPending, confidence := 0, selected := false }

/-- The Deezer search loop, phase 3 of `run` (lines 157–205).  `cancelAt i`
models the checkpoint observing cancellation at iteration `i`; the returned
Bool is true when the loop aborted. -/
def searchLoop (dxSearch : String → Except Unit (List SearchResult))
    (threshold : Int) (cancelAt : Nat → Bool) :
    List Track → Nat → Session → Session × Bool
  | [], _, session => (session, false)
  | _ :: rest, i, session =>
    if cancelAt i then
      (if session.status ≠ StatusCanceled then setError session "canceled" else session, true)
    else
      match session.tracks.get? i with
      | none => searchLoop dxSearch threshold cancelAt rest (i + 1) session
      | some t0 =>
        let session := setTrack session i { t0 with status := TrackSearching }
        let query := buildQuery t0.parsedArtist t0.parsedSong
        let session :=
          match dxSearch query with
          | .error _ =>
            let s := setTrack session i { t0 with status := TrackNotFound }
            { s with progress := { s.progress with notFound := s.progress.notFound + 1 } }
          | .ok [] =>
            let s := setTrack session i { t0 with status := TrackNotFound }
            { s with progress := { s.progress with notFound := s.progress.notFound + 1 } }
          | .ok (m :: _) =>
            let confidence :=
              calculateConfidence t0.parsedArtist t0.parsedSong m.artist m.title
            if threshold ≤ confidence then
              let s := setTrack session i { t0 with
                deezerMatch := some m,
                confidence := confidence, status := TrackFound, selected := true }
              { s with progress := { s.progress with selected := s.progress.selected + 1 } }
            else
              let s := setTrack session i { t0 with
                deezerMatch := some m,
                confidence := confidence, status := TrackNeedsReview }
              { s with progress :=
                  { s.progress with needsReview := s.progress.needsReview + 1 } }
        let session :=
          { session with progress := { session.progress with
              searched := session.progress.searched + 1 } }
        searchLoop dxSearch threshold cancelAt rest (i + 1) session

/-- The Navidrome check loop, phase 3.5 of `run` (lines 207–246). -/
def checkLoop (navSearch : String → String → Except Unit (List NavResult))
    (cancelAt : Nat → Bool) :
    List Track → Nat → Session → Session × Bool
  | [], _, session => (session, false)
  | _ :: rest, i, session =>
    if cancelAt i then
      (if session.status ≠ StatusCanceled then setError session "canceled" else session, true)
    else
      match session.tracks.get? i with
      | none => checkLoop navSearch cancelAt rest (i + 1) session
      | some track =>
        match track.deezerMatch with
        | none => checkLoop navSearch cancelAt rest (i + 1) session
        | some _ =>
          let session :=
            match navSearch track.parsedArtist track.parsedSong with
            | .ok (_ :: _) =>
              let s :=
                if track.selected then
                  { session with
                    tracks :=
                      session.tracks.set i { track with selected := false,
                                                        status := TrackSkipped },
                    progress := { session.progress with
                      selected := session.progress.selected - 1 } }
                else setTrack session i { track with status := TrackSkipped }
              { s with progress := { s.progress with skipped := s.progress.skipped + 1 } }
            | _ => session
          checkLoop navSearch cancelAt rest (i + 1) session

/-- `run` from `src/unnamed/part_003` (lines 115–254): fetch, parse, search,
optional Navidrome check, then `StatusReady`.  The fetch result is the
parameter `fetched`; `cancelSearchAt` / `cancelCheckAt` model the checkpoints
of the two loops. -/
def run (fetched : Except String (List PlaylistEntry))
    (dxSearch : String → Except Unit (List SearchResult))
    (navSearch : String → String → Except Unit (List NavResult))
    (navEnabled : Bool) (threshold : Int)
    (cancelSearchAt cancelCheckAt : Nat → Bool) (session : Session) : Session :=
  match fetched with
  | .error msg => setError session ("failed to fetch playlist: " ++ msg)
  | .ok entries =>
    let tracks := entries.map parseEntryTrack
    let session := { session with
      status := StatusSearching, tracks := tracks,
      progress := { session.progress with total := (entries.length : Int) } }
    let out := searchLoop dxSearch threshold cancelSearchAt session.tracks 0 session
    if out.2 then out.1
    else
      let session := out.1
      if navEnabled && session.checkNavidrome then
        let session1 := { session with status := StatusChecking }
        let out2 := checkLoop navSearch cancelCheckAt session1.tracks 0 session1
        if out2.2 then out2.1
        else { out2.1 with status := StatusReady }
      else { session with status := StatusReady }

/-- The number of selected tracks of a session (the right-hand side of the
spec's invariant `Progress.selected = |{t : t.selected}|`). -/
def countSelected (tracks : List Track) : Int :=
  ((tracks.filter (fun t => t.selected)).length : Int)

/-- The links `Download` is specified to enqueue: those of the selected
tracks that carry a match, in index order. -/
def selectedMatchedLinks (tracks : List Track) : List String :=
  (tracks.filter (fun t => t.selected && t.deezerMatch.isSome)).filterMap
    (fun t => t.deezerMatch.map (fun m => m.link))

/-- The effect of one `Download` iteration on its track: skipped when not
selected or without a match, otherwise marked from the `AddToQueue` result. -/
def applyQueue (addToQueue : String → Int → Bool) (bitrate : Int) (t : Track) : Track :=
  if ¬t.selected then t
  else
    match t.deezerMatch with
    | none => t
    | some m =>
      if addToQueue m.link bitrate then { t with status := TrackDownloaded }
      else { t with status := TrackError }

/-- How many tracks of `ts` the download loop successfully queues. -/
def queuedDelta (addToQueue : String → Int → Bool) (bitrate : Int) (ts : List Track) : Int :=
  ((ts.filter fun t =>
      t.selected && ((t.deezerMatch.map (fun m => addToQueue m.link bitrate)).getD false)).length : Int)

/-! ### Concrete scenario data (used by the counterexample evaluations and
the witnesses) -/

def noCancel : Nat → Bool := fun _ => false

def dxNone : String → Except Unit (List SearchResult) := fun _ => .ok []

def navNone : String → String → Except Unit (List NavResult) := fun _ _ => .ok []

def matchAB : SearchResult :=
  { id := 1, title := "b", artist := "a", album := "", duration := 0, link := "L1" }

def dxAB : String → Except Unit (List SearchResult) := fun _ => .ok [matchAB]

def entryAB : PlaylistEntry :=
  { title := "t", videoID := "v", url := "", artist := "a", track := "b", channel := "" }

def sessionInit : Session :=
  { id := "s", url := "u", status := StatusFetching, error := "", tracks := [],
    progress := ⟨0, 0, 0, 0, 0, 0, 0⟩, bitrate := 3, checkNavidrome := false }

/-- The session produced by the analysis workflow on the playlist `[entryAB]`
when every Deezer search comes back empty: `ready`, one `not_found` track. -/
def sessionReadyNF : Session :=
  run (.ok [entryAB]) dxNone navNone false 70 noCancel noCancel sessionInit

def pipelineNF : Pipeline :=
  { sessions := [("s", sessionReadyNF)], confidenceThreshold := 70 }

/-- Manual re-search of the `not_found` track with a perfectly matching
result (confidence 100, at the default threshold 70). -/
def searchOutcome : Except SyncErr Pipeline :=
  SearchTrack dxAB navNone false pipelineNF "s" 0 "b"

def sessionAfterSearch : Option Session :=
  searchOutcome.toOption.bind (fun p => lookupSession p "s")

/-- The literal value of `sessionReadyNF` (established by `sessionReadyNF_eq`). -/
def trackNFLit : Track :=
  { youTubeTitle := "t", parsedArtist := "a", parsedSong := "b",
    deezerMatch := none, status := TrackNotFound, confidence := 0, selected := false }

def sessionNFLit : Session :=
  { id := "s", url := "u", status := StatusReady, error := "",
    tracks := [trackNFLit],
    progress := ⟨1, 1, 0, 1, 0, 0, 0⟩, bitrate := 3, checkNavidrome := false }

/-- The literal session after the manual re-search (established by
`sessionAfterSearch_eq`): the track became `found`/selected with confidence
100, `not_found` was decremented — but `Progress.selected` is still 0. -/
def trackFoundLit : Track :=
  { youTubeTitle := "t", parsedArtist := "a", parsedSong := "b",
    deezerMatch := some matchAB, status := TrackFound, confidence := 100, selected := true }

def sessionSearchedLit : Session :=
  { id := "s", url := "u", status := StatusReady, error := "",
    tracks := [trackFoundLit],
    progress := ⟨1, 1, 0, 0, 0, 0, 0⟩, bitrate := 3, checkNavidrome := false }

def addqT : String → Int → Bool := fun _ _ => true

def trackSel : Track :=
  { youTubeTitle := "t1", parsedArtist := "a", parsedSong := "b",
    deezerMatch := some matchAB, status := TrackFound, confidence := 100, selected := true }

def trackNoMatch : Track :=
  { youTubeTitle := "t2", parsedArtist := "c", parsedSong := "d",
    deezerMatch := none, status := TrackNotFound, confidence := 0, selected := false }

def sessionMix : Session :=
  { id := "s", url := "u", status := StatusReady, error := "",
    tracks := [trackSel, trackNoMatch],
    progress := ⟨2, 2, 0, 1, 0, 0, 1⟩, bitrate := 3, checkNavidrome := false }

def pipelineMix : Pipeline :=
  { sessions := [("s", sessionMix)], confidenceThreshold := 70 }

/-! ## Go context semantics for `Analyze` (part_003 lines 72–98)

A Go context is modelled by the list of cancellation handles that can cancel
it.  `context.WithCancel(parent)` returns a child that is cancelled when the
parent is cancelled or when its own `cancel` function is invoked, so the
child carries the parent's handles plus a fresh one. -/

abbrev GoContext : Type := List Nat

def withCancel (parent : GoContext) (handle : Nat) : GoContext := parent ++ [handle]

/-- `ctx.Done()` has fired: some handle of the context has been invoked. -/
def ctxDone (cancelled : Nat → Bool) (ctx : GoContext) : Bool := ctx.any cancelled

/-- Line 83 of `Analyze`: `ctx, cancel := context.WithCancel(ctx)` — the
context handed to the `run` goroutine, whose fresh `cancel` handle is stored
in the SessionControl. -/
def analyzeSessionCtx (callerCtx : GoContext) (handle : Nat) : GoContext :=
  withCancel callerCtx handle

/-! ## SessionControl, checkpoint, pause / resume / cancel
(part_003 lines 20–25 and 264–396)

The two single-slot signal channels become Booleans (a non-blocking send on
a full channel is dropped, so sending is just setting the flag); `canceled`
says the stored `cancel` handle has been invoked.  The blocking wait inside
`checkpoint` is split in two: `checkpointEnter` covers the non-blocking part
up to observing a pause signal, `checkpointWake` the wake-up of the blocking
select on `resumeCh` / `ctx.Done()`.  The session-map lookup performed by
the public operations is handled by `lookupSession` elsewhere; these models
act on the session and control directly. -/

structure SessionControl where
  canceled : Bool
  pauseCh : Bool
  resumeCh : Bool
deriving DecidableEq

inductive CheckpointStep where
  | proceed (s : Session) (c : SessionControl)
  | canceledErr (s : Session) (c : SessionControl)
  | paused (s : Session) (c : SessionControl)
deriving DecidableEq

/-- `checkpoint` (lines 264–303), up to the blocking wait: return the
cancellation error if ctx is done; else, if a pause signal waits, consume it
and set status `paused`; else proceed. -/
def checkpointEnter (c : SessionControl) (s : Session) : CheckpointStep :=
  if c.canceled then .canceledErr s c
  else if c.pauseCh then .paused { s with status := StatusPaused } { c with pauseCh := false }
  else .proceed s c

/-- The wake-up of the blocking select while paused: cancellation wins,
otherwise a waiting resume signal is consumed and the status is restored to
the `previousStatus` argument; with neither signal the worker stays blocked. -/
def checkpointWake (c : SessionControl) (s : Session) (previousStatus : String) :
    CheckpointStep :=
  if c.canceled then .canceledErr s c
  else if c.resumeCh then
    .proceed { s with status := previousStatus } { c with resumeCh := false }
  else .paused s c

/-- `PauseSession` (lines 306–335) on the session's control. -/
def PauseSession (s : Session) (c : SessionControl) : Except SyncErr SessionControl :=
  if s.status = StatusFetching ∨ s.status = StatusParsing ∨ s.status = StatusSearching ∨
      s.status = StatusChecking ∨ s.status = StatusDownloading then
    .ok { c with pauseCh := true }
  else if s.status = StatusPaused then .error .sessionPaused
  else .error .sessionNotReady

/-- `ResumeSession` (lines 338–361) on the session's control. -/
def ResumeSession (s : Session) (c : SessionControl) : Except SyncErr SessionControl :=
  if s.status ≠ StatusPaused then .error .sessionNotPaused
  else .ok { c with resumeCh := true }

/-- `CancelSession` (lines 364–396): rejected on terminal statuses;
otherwise invoke the cancel handle, send a resume signal (waking a paused
worker), and set the status to `canceled`. -/
def CancelSession (s : Session) (c : SessionControl) :
    Except SyncErr (Session × SessionControl) :=
  if s.status = StatusDone ∨ s.status = StatusError ∨ s.status = StatusCanceled then
    .error .sessionCanceled
  else
    .ok ({ s with status := StatusCanceled },
         { c with canceled := true, resumeCh := true })

/-! ## Interleaving machine for the download phase (lines 414–475)

Atomicity follows the synchronisation of the source: every lock-protected
region is one atomic step, and the worker's *unlocked* reads are steps of
their own, so a concurrent `CancelSession` may interleave between any two of
them.  Worker phases: `loopAt i` is the top of iteration `i` — the
checkpoint's ctx-done observation together with the unlocked
`session.Status != StatusCanceled` guard read of line 441 (both are reads
and the ctx-done flag only ever becomes true, so fusing the two reads loses
no interleaving; pause signals are absent here); `errWrite` is `setError`'s
separate locked write, pending after a guard read that saw a non-canceled
status; `bodyAt i` is the body; `closing` the final unconditional
`status = done` write.  After the body of the final iteration the worker
proceeds straight to `closing`: the loop has no further checkpoint.

A concurrent `CancelSession` call (lines 364–396) likewise takes two
session-visible atomic actions, tracked by `cancelPc`: first the unlocked
terminal-status check followed by `ctrl.cancel()` and the non-blocking
resume send (writes only the control, not the session); then, as a separate
locked region, the `Status = StatusCanceled` write of line 391. -/

inductive DlPhase where
  | loopAt (i : Nat)
  | errWrite
  | bodyAt (i : Nat)
  | closing
  | exited
deriving DecidableEq

inductive CancelPc where
  | idle
  | invoked
  | finished
deriving DecidableEq

structure DlState where
  session : Session
  ctrl : SessionControl
  phase : DlPhase
  cancelPc : CancelPc
deriving DecidableEq

/-- One atomic step of the download worker. -/
def dlWorkerStep (addq : String → Int → Bool) (st : DlState) : DlState :=
  match st.phase with
  | .loopAt i =>
    if st.ctrl.canceled then
      if st.session.status = StatusCanceled then { st with phase := .exited }
      else { st with phase := .errWrite }
    else { st with phase := .bodyAt i }
  | .errWrite =>
    { st with session := setError st.session "canceled", phase := .exited }
  | .bodyAt i =>
    match st.session.tracks.get? i with
    | none => { st with phase := .closing }
    | some track =>
      let next : DlPhase :=
        if i + 1 < st.session.tracks.length then .loopAt (i + 1) else .closing
      if ¬track.selected then { st with phase := next }
      else
        match track.deezerMatch with
        | none => { st with phase := next }
        | some m =>
          let ok := addq m.link st.session.bitrate
          let track1 :=
            if ok then { track with status := TrackDownloaded }
            else { track with status := TrackError }
          let session1 :=
            if ok then
              { st.session with
                tracks := st.session.tracks.set i track1,
                progress := { st.session.progress with
                  queued := st.session.progress.queued + 1 } }
            else { st.session with tracks := st.session.tracks.set i track1 }
          { st with session := session1, phase := next }
  | .closing =>
    { st with session := { st.session with status := StatusDone }, phase := .exited }
  | .exited => st

/-- One atomic action of a concurrent `CancelSession` call: the terminal
check with the cancel-handle invocation first (the session is not written),
then the locked `canceled` status write. -/
def dlCancelStep (st : DlState) : DlState :=
  match st.cancelPc with
  | .idle =>
    if st.session.status = StatusDone ∨ st.session.status = StatusError ∨
        st.session.status = StatusCanceled then
      { st with cancelPc := .finished }
    else
      { st with ctrl := { st.ctrl with canceled := true, resumeCh := true },
                cancelPc := .invoked }
  | .invoked =>
    { st with session := { st.session with status := StatusCanceled },
              cancelPc := .finished }
  | .finished => st

inductive DlEvent where
  | worker
  | cancelEvt
deriving DecidableEq

def dlRun (addq : String → Int → Bool) : List DlEvent → DlState → DlState
  | [], st => st
  | e :: es, st =>
    match e with
    | .worker => dlRun addq es (dlWorkerStep addq st)
    | .cancelEvt => dlRun addq es (dlCancelStep st)

/-- The state right after `Download` accepted a ready session: status
`downloading`, a fresh SessionControl, the worker at the top of the loop,
no `CancelSession` call in flight. -/
def dlStart (session : Session) : DlState :=
  { session := { session with status := StatusDownloading },
    ctrl := ⟨false, false, false⟩,
    phase := if 0 < session.tracks.length then .loopAt 0 else .closing,
    cancelPc := .idle }

/-! ## `runYtdlp` and the `encoding/json` stream decoder
(part_008 lines 97–127)

`json.Decoder.Decode` distinguishes two error classes: a value that is
well-formed JSON but fails to unmarshal is consumed and the stream stays
usable (the decoder source explicitly does not save unmarshal errors into
`dec.err`), while a syntax error is stored in `dec.err` and every subsequent
`Decode` call returns that same error without consuming input.  The decoder
state is its remaining input plus that sticky-error flag; the loop gets a
fuel argument, and `none` means the loop has not terminated within the
given fuel. -/

inductive JsonItem where
  | okEntry (e : PlaylistEntry)
  | badValue
  | synBad
deriving DecidableEq

structure DecState where
  items : List JsonItem
  sticky : Bool
deriving DecidableEq

inductive DecodeOut where
  | entry (e : PlaylistEntry)
  | eofOut
  | errOut
deriving DecidableEq

/-- One `dec.Decode(&entry)` call. -/
def decodeStep (d : DecState) : DecodeOut × DecState :=
  if d.sticky then (.errOut, d)
  else
    match d.items with
    | [] => (.eofOut, d)
    | .okEntry e :: rest => (.entry e, { items := rest, sticky := false })
    | .badValue :: rest => (.errOut, { items := rest, sticky := false })
    | .synBad :: _ => (.errOut, { d with sticky := true })

/-- The parse loop of `runYtdlp` (lines 109–118): break on EOF, append a
decoded entry, and `continue` on any other error. -/
def parseDecodeLoop : Nat → DecState → List PlaylistEntry → Option (List PlaylistEntry)
  | 0, _, _ => none
  | fuel + 1, d, acc =>
    match decodeStep d with
    | (.eofOut, _) => some acc
    | (.entry e, d1) => parseDecodeLoop fuel d1 (acc ++ [e])
    | (.errOut, d1) => parseDecodeLoop fuel d1 acc

/-- `runYtdlp` (lines 97–127): parse stdout even if the command failed, and
fail only when the command failed and no entries were parsed.  The result is
`none` when the parse loop does not terminate within the fuel. -/
def runYtdlp (cmdFailed : Bool) (stdout : List JsonItem) (fuel : Nat) :
    Option (Except String (List PlaylistEntry)) :=
  match parseDecodeLoop fuel ⟨stdout, false⟩ [] with
  | none => none
  | some entries =>
    some (if cmdFailed ∧ entries = [] then .error "yt-dlp failed" else .ok entries)

/-! ### Bounds for the Levenshtein dynamic program -/

lemma levRowStep_length (x : Char) : ∀ (ys : List Char) (p : List Nat) (left : Nat),
    (levRowStep x ys p left).length = min ys.length (p.length - 1)
  | [], p, _ => by cases p <;> simp [levRowStep]
  | _ :: _, [], _ => by simp [levRowStep]
  | _ :: _, [_], _ => by simp [levRowStep]
  | y :: ys, p0 :: p1 :: ps, left => by
    simp only [levRowStep, List.length_cons, levRowStep_length x ys (p1 :: ps)]
    omega

lemma levRowStep_getD_le (x : Char) : ∀ (ys : List Char) (p : List Nat) (left k : Nat),
    (levRowStep x ys p left).getD k 0 ≤ p.getD k 0 + 1
  | [], p, _, k => by cases p <;> simp [levRowStep, List.getD_nil]
  | _ :: _, [], _, k => by simp [levRowStep, List.getD_nil]
  | _ :: _, [_], _, k => by simp [levRowStep, List.getD_nil]
  | y :: ys, p0 :: p1 :: ps, left, 0 => by
    simp only [levRowStep, List.getD_cons_zero]
    have hc : (if x = y then 0 else 1) ≤ 1 := by split <;> omega
    omega
  | y :: ys, p0 :: p1 :: ps, left, k + 1 => by
    simpa only [levRowStep, List.getD_cons_succ] using
      levRowStep_getD_le x ys (p1 :: ps) _ k

lemma levRowStep_getD_diag (x : Char) : ∀ (k : Nat) (ys : List Char) (p : List Nat)
    (left : Nat), ys.get? k = some x → p.getD k 0 = 0 →
    (levRowStep x ys p left).getD k 0 = 0
  | k, [], _, _, hy, _ => by simp at hy
  | k, _ :: _, [], _, _, _ => by simp [levRowStep, List.getD_nil]
  | k, _ :: _, [_], _, _, _ => by simp [levRowStep, List.getD_nil]
  | 0, y :: ys, p0 :: p1 :: ps, left, hy, hp => by
    simp only [List.get?_cons_zero, Option.some.injEq] at hy
    simp only [List.getD_cons_zero] at hp
    subst hy
    simp [levRowStep, hp]
  | k + 1, y :: ys, p0 :: p1 :: ps, left, hy, hp => by
    simp only [List.get?_cons_succ] at hy
    simp only [List.getD_cons_succ] at hp
    simpa only [levRowStep, List.getD_cons_succ] using
      levRowStep_getD_diag x k ys (p1 :: ps) _ hy hp

lemma levRows_length (b : List Char) : ∀ (xs : List Char) (prev : List Nat) (i : Nat),
    prev.length = b.length + 1 → (levRows b xs prev i).length = b.length + 1
  | [], prev, _, h => by simpa [levRows] using h
  | x :: xs, prev, i, h => by
    rw [levRows, levRows_length b xs _ (i + 1)]
    simp [levRowStep_length, h]

lemma levRows_getD_le (b : List Char) : ∀ (xs : List Char) (prev : List Nat) (i : Nat),
    1 ≤ i → (∀ k, prev.getD k 0 ≤ max (i - 1) k) →
    ∀ k, (levRows b xs prev i).getD k 0 ≤ max (i - 1 + xs.length) k
  | [], prev, i, _, hprev, k => by simpa [levRows] using hprev k
  | x :: xs, prev, i, hi, hprev, k => by
    have hnext : ∀ k, (i :: levRowStep x b prev i).getD k 0 ≤ max (i + 1 - 1) k := by
      intro k
      match k with
      | 0 => simp [List.getD_cons_zero]
      | k + 1 =>
        have h1 := levRowStep_getD_le x b prev i k
        have h2 := hprev k
        simp only [List.getD_cons_succ]
        omega
    have := levRows_getD_le b xs (i :: levRowStep x b prev i) (i + 1) (by omega) hnext k
    rw [levRows]
    have harith : i + 1 - 1 + xs.length = i - 1 + (x :: xs).length := by
      simp only [List.length_cons]; omega
    rwa [harith] at this

lemma levRows_getD_diag (b : List Char) : ∀ (xs : List Char) (prev : List Nat) (i : Nat),
    1 ≤ i → (∀ j, xs.get? j = b.get? (i - 1 + j)) → prev.getD (i - 1) 0 = 0 →
    (levRows b xs prev i).getD (i - 1 + xs.length) 0 = 0
  | [], prev, i, _, _, hprev => by simpa [levRows] using hprev
  | x :: xs, prev, i, hi, hxs, hprev => by
    have hx : b.get? (i - 1) = some x := by
      have := hxs 0
      simpa using this.symm
    have hdiag : (i :: levRowStep x b prev i).getD (i + 1 - 1) 0 = 0 := by
      have : (levRowStep x b prev i).getD (i - 1) 0 = 0 :=
        levRowStep_getD_diag x (i - 1) b prev i hx hprev
      have hidx : i + 1 - 1 = (i - 1) + 1 := by omega
      rw [hidx, List.getD_cons_succ]
      exact this
    have hxs' : ∀ j, xs.get? j = b.get? (i + 1 - 1 + j) := by
      intro j
      have := hxs (j + 1)
      have hidx : i - 1 + (j + 1) = i + 1 - 1 + j := by omega
      rwa [List.get?_cons_succ, hidx] at this
    have := levRows_getD_diag b xs (i :: levRowStep x b prev i) (i + 1) (by omega) hxs' hdiag
    rw [levRows]
    have harith : i + 1 - 1 + xs.length = i - 1 + (x :: xs).length := by
      simp only [List.length_cons]; omega
    rwa [harith] at this

lemma range_getD_le (n k : Nat) : (List.range n).getD k 0 ≤ k := by
  have h0 : (List.range n).getD k 0 = ((List.range n).get? k).getD 0 := rfl
  rw [h0]
  by_cases h : k < n
  · rw [List.get?_range h]
    simp
  · rw [List.get?_eq_none.mpr (by simpa using Nat.le_of_not_lt h)]
    simp

lemma getLast?_getD_eq_getD (l : List Nat) : (l.getLast?).getD 0 = l.getD (l.length - 1) 0 := by
  rw [List.getLast?_eq_get?]
  rfl

/-- The edit distance computed by the dynamic program is at most the larger length. -/
lemma levenshtein_le_max (a b : List Char) : levenshtein a b ≤ max a.length b.length := by
  rw [levenshtein]
  by_cases ha : a = []
  · simp [ha]
  · rw [if_neg ha]
    by_cases hb : b = []
    · simp [hb]
    · rw [if_neg hb]
      have hlen : (levRows b a (List.range (b.length + 1)) 1).length = b.length + 1 :=
        levRows_length b a _ 1 (by simp)
      have hbound := levRows_getD_le b a (List.range (b.length + 1)) 1 le_rfl
        (fun k => by simpa using range_getD_le (b.length + 1) k) b.length
      rw [getLast?_getD_eq_getD, hlen]
      simpa using hbound

/-- The edit distance of a list with itself is zero. -/
lemma levenshtein_self (a : List Char) : levenshtein a a = 0 := by
  rw [levenshtein]
  by_cases ha : a = []
  · simp [ha]
  · rw [if_neg ha, if_neg ha]
    have hlen : (levRows a a (List.range (a.length + 1)) 1).length = a.length + 1 :=
      levRows_length a a _ 1 (by simp)
    have hdiag := levRows_getD_diag a a (List.range (a.length + 1)) 1 le_rfl
      (fun j => by simp) (by
        have h0 : (List.range (a.length + 1)).getD (1 - 1) 0
            = ((List.range (a.length + 1)).get? 0).getD 0 := rfl
        rw [h0, List.get?_range (Nat.succ_pos a.length)]
        rfl)
    rw [getLast?_getD_eq_getD, hlen]
    simpa using hdiag

/-! ### Range of `similarity` and agreement with the claimed formula -/

lemma similarity_nonneg (a b : List Char) : 0 ≤ similarity a b := by
  rw [similarity]
  split
  · norm_num
  · split
    · norm_num
    · rename_i hne hmax
      have hpos : (0 : ℚ) < ((max a.length b.length : ℕ) : ℚ) := by
        exact_mod_cast Nat.pos_of_ne_zero hmax
      have hle : (levenshtein a b : ℚ) ≤ ((max a.length b.length : ℕ) : ℚ) := by
        exact_mod_cast levenshtein_le_max a b
      have hdiv : (levenshtein a b : ℚ) / ((max a.length b.length : ℕ) : ℚ) ≤ 1 :=
        div_le_one_of_le hle (le_of_lt hpos)
      linarith

lemma similarity_le_one (a b : List Char) : similarity a b ≤ 1 := by
  rw [similarity]
  split
  · norm_num
  · split
    · norm_num
    · rename_i hne hmax
      have hpos : (0 : ℚ) < ((max a.length b.length : ℕ) : ℚ) := by
        exact_mod_cast Nat.pos_of_ne_zero hmax
      have hnn : (0 : ℚ) ≤ (levenshtein a b : ℚ) / ((max a.length b.length : ℕ) : ℚ) :=
        div_nonneg (by positivity) (le_of_lt hpos)
      linarith

/-- The source `similarity` (with its `a == b` early return) agrees with the
formula stated in the specification. -/
lemma similarity_eq_simSpec (a b : List Char) : similarity a b = simSpec a b := by
  rw [similarity, simSpec]
  by_cases hab : a = b
  · subst hab
    rw [if_pos rfl]
    by_cases hmax : max a.length a.length = 0
    · rw [if_pos hmax]
    · rw [if_neg hmax, levenshtein_self]
      simp
  · rw [if_neg hab]

lemma goTrunc_eq_floor {q : ℚ} (h : 0 ≤ q) : goTrunc q = ⌊q⌋ := if_pos h

lemma floor_le_nat {q : ℚ} {m : ℕ} (h : q ≤ (m : ℚ)) : ⌊q⌋ ≤ (m : ℤ) := by
  have := Int.floor_le_floor h
  simpa using this

/-- C6: `calculateConfidence` lower-cases and trims all four strings; if the
normalized parsed artist is empty it returns `floor(titleSim * 60)` — hence at
most 60 — and otherwise `floor((artistSim * 0.4 + titleSim * 0.6) * 100)`,
where similarity is `1 − levenshtein/max(|a|,|b|)` with `sim("","") = 1`;
the result always lies in `[0, 100]`. -/
theorem C6_calculateConfidence_spec (pa ps ra rt : String) :
    calculateConfidence pa ps ra rt =
      (if normStr pa = [] then ⌊simSpec (normStr ps) (normStr rt) * 60⌋
       else ⌊(simSpec (normStr pa) (normStr ra) * (0.4 : ℚ) +
              simSpec (normStr ps) (normStr rt) * (0.6 : ℚ)) * 100⌋)
    ∧ (normStr pa = [] → calculateConfidence pa ps ra rt ≤ 60)
    ∧ 0 ≤ calculateConfidence pa ps ra rt ∧ calculateConfidence pa ps ra rt ≤ 100 := by
  have h1 := similarity_nonneg (normStr ps) (normStr rt)
  have h2 := similarity_le_one (normStr ps) (normStr rt)
  have h3 := similarity_nonneg (normStr pa) (normStr ra)
  have h4 := similarity_le_one (normStr pa) (normStr ra)
  simp only [similarity_eq_simSpec] at h1 h2 h3 h4
  by_cases hpa : normStr pa = []
  · have hnn : 0 ≤ simSpec (normStr ps) (normStr rt) * 60 := by linarith
    have hub60 : simSpec (normStr ps) (normStr rt) * 60 ≤ ((60 : ℕ) : ℚ) := by
      push_cast; linarith
    have hub100 : simSpec (normStr ps) (normStr rt) * 60 ≤ ((100 : ℕ) : ℚ) := by
      push_cast; linarith
    simp only [calculateConfidence, if_pos hpa, similarity_eq_simSpec,
      goTrunc_eq_floor hnn]
    refine ⟨trivial, fun _ => ?_, ?_, ?_⟩
    · simpa using floor_le_nat hub60
    · exact Int.floor_nonneg.mpr hnn
    · simpa using floor_le_nat hub100
  · have hnn : 0 ≤ (simSpec (normStr pa) (normStr ra) * (0.4 : ℚ) +
        simSpec (normStr ps) (normStr rt) * (0.6 : ℚ)) * 100 := by nlinarith
    have hub : (simSpec (normStr pa) (normStr ra) * (0.4 : ℚ) +
        simSpec (normStr ps) (normStr rt) * (0.6 : ℚ)) * 100 ≤ ((100 : ℕ) : ℚ) := by
      push_cast; nlinarith
    simp only [calculateConfidence, if_neg hpa, similarity_eq_simSpec,
      goTrunc_eq_floor hnn]
    refine ⟨trivial, fun h => absurd h hpa, ?_, ?_⟩
    · exact Int.floor_nonneg.mpr hnn
    · simpa using floor_le_nat hub

/-- Witness for C6 at a concrete input with an empty parsed artist. -/
theorem C6_calculateConfidence_spec_witness :
    calculateConfidence "" "abc" "Artist" "abd" ≤ 60 ∧
    0 ≤ calculateConfidence "" "abc" "Artist" "abd" := by
  have h := C6_calculateConfidence_spec "" "abc" "Artist" "abd"
  exact ⟨h.2.1 (by decide), h.2.2.1⟩

/-! ### Characterisation of the download loop without cancellation -/

lemma set_drop_succ {α : Type} : ∀ (l : List α) (i : Nat) (x : α),
    (l.set i x).drop (i + 1) = l.drop (i + 1)
  | [], _, _ => rfl
  | _ :: _, 0, _ => rfl
  | a :: l, i + 1, x => by
    simp only [List.set_cons_succ, List.drop_succ_cons]
    exact set_drop_succ l i x

lemma set_take_self {α : Type} : ∀ (l : List α) (i : Nat) (x : α),
    (l.set i x).take i = l.take i
  | [], _, _ => rfl
  | _ :: _, 0, _ => rfl
  | a :: l, i + 1, x => by
    simp only [List.set_cons_succ, List.take_succ_cons]
    rw [set_take_self l i x]

lemma drop_succ_of_drop_cons {α : Type} {l : List α} {i : Nat} {t : α} {rest : List α}
    (h : l.drop i = t :: rest) : l.drop (i + 1) = rest := by
  have h1 : l.drop (i + 1) = (l.drop i).drop 1 := by
    rw [List.drop_drop, Nat.add_comm]
  rw [h1, h]
  rfl

lemma get?_of_drop_cons {α : Type} {l : List α} {i : Nat} {t : α} {rest : List α}
    (h : l.drop i = t :: rest) : l.get? i = some t := by
  have h1 := List.get?_drop l i 0
  rw [h] at h1
  simpa using h1.symm

lemma lt_length_of_drop_cons {α : Type} {l : List α} {i : Nat} {t : α} {rest : List α}
    (h : l.drop i = t :: rest) : i < l.length := by
  by_contra hcon
  rw [List.drop_eq_nil_iff_le.mpr (Nat.le_of_not_lt hcon)] at h
  exact List.noConfusion h

/-- Without cancellation, the download loop marks every selected matched
track from its `AddToQueue` result, queues exactly the selected matched
links in order, counts the successes, and finishes in `StatusDone`. -/
lemma downloadLoop_no_cancel (addq : String → Int → Bool) :
    ∀ (rest : List Track) (i : Nat) (session : Session),
    session.tracks.drop i = rest →
    downloadLoop addq noCancel rest i session =
      ({ session with
          status := StatusDone,
          tracks := session.tracks.take i ++ rest.map (applyQueue addq session.bitrate),
          progress := { session.progress with
            queued := session.progress.queued + queuedDelta addq session.bitrate rest } },
       selectedMatchedLinks rest, false)
  | [], i, session, h => by
    have hlen : session.tracks.length ≤ i := List.drop_eq_nil_iff_le.mp h
    simp [downloadLoop, queuedDelta, selectedMatchedLinks, List.take_all_of_le hlen]
  | t :: rest', i, session, h => by
    have hget : session.tracks.get? i = some t := get?_of_drop_cons h
    have hlt : i < session.tracks.length := lt_length_of_drop_cons h
    have hdrop' : session.tracks.drop (i + 1) = rest' := drop_succ_of_drop_cons h
    have htake : session.tracks.take (i + 1) = session.tracks.take i ++ [t] := by
      rw [List.take_succ, ← List.get?_eq_getElem?, hget]
      rfl
    obtain ⟨ty, tpa, tps, tdm, tst, tc, tse⟩ := t
    rw [downloadLoop]
    simp only [noCancel, Bool.false_eq_true, if_false, hget, ite_false]
    cases tse with
    | false =>
      have hrec := downloadLoop_no_cancel addq rest' (i + 1) session hdrop'
      simp only [hrec, htake]
      simp [applyQueue, queuedDelta, selectedMatchedLinks]
    | true =>
      cases tdm with
      | none =>
        have hrec := downloadLoop_no_cancel addq rest' (i + 1) session hdrop'
        simp only [hrec, htake]
        simp [applyQueue, queuedDelta, selectedMatchedLinks]
      | some m =>
        by_cases hok : addq m.link session.bitrate = true
        · have hrec := downloadLoop_no_cancel addq rest' (i + 1)
            ({ session with
               tracks := session.tracks.set i
                 ⟨ty, tpa, tps, some m, TrackDownloaded, tc, true⟩,
               progress := { session.progress with
                 queued := session.progress.queued + 1 } })
            (by simpa [set_drop_succ] using hdrop')
          have htakeset : (session.tracks.set i
              (⟨ty, tpa, tps, some m, TrackDownloaded, tc, true⟩ : Track)).take (i + 1)
              = session.tracks.take i ++ [(⟨ty, tpa, tps, some m, TrackDownloaded, tc, true⟩ : Track)] := by
            rw [List.take_succ, set_take_self, List.getElem?_set_eq_of_lt _ (by simpa using hlt)]
            rfl
          simp only [hok, ite_true, hrec, htakeset]
          simp [applyQueue, queuedDelta, selectedMatchedLinks, hok]
          omega
        · have hrec := downloadLoop_no_cancel addq rest' (i + 1)
            ({ session with
               tracks := session.tracks.set i
                 ⟨ty, tpa, tps, some m, TrackError, tc, true⟩ })
            (by simpa [set_drop_succ] using hdrop')
          have htakeset : (session.tracks.set i
              (⟨ty, tpa, tps, some m, TrackError, tc, true⟩ : Track)).take (i + 1)
              = session.tracks.take i ++ [(⟨ty, tpa, tps, some m, TrackError, tc, true⟩ : Track)] := by
            rw [List.take_succ, set_take_self, List.getElem?_set_eq_of_lt _ (by simpa using hlt)]
            rfl
          rw [Bool.not_eq_true] at hok
          simp only [hok, Bool.false_eq_true, if_false, hrec, htakeset]
          simp [applyQueue, queuedDelta, selectedMatchedLinks, hok]

lemma find?_store : ∀ (l : List (String × Session)) (sessionID : String) (s : Session),
    (l.find? (fun e => e.1 == sessionID)).isSome →
    (l.map (fun e => if e.1 == sessionID then (e.1, s) else e)).find?
      (fun e => e.1 == sessionID) = some (sessionID, s)
  | [], _, _, h => by simp [List.find?] at h
  | e :: l, sessionID, s, h => by
    rw [List.map_cons]
    by_cases he : e.1 == sessionID
    · have hid : e.1 = sessionID := by simpa using he
      rw [if_pos he]
      simp [List.find?, he, hid]
    · rw [if_neg he]
      simp only [List.find?, he] at h ⊢
      exact find?_store l sessionID s h

/-- After `storeSession`, looking the session up returns the stored value. -/
lemma lookupSession_store (p : Pipeline) (sessionID : String) (s s0 : Session)
    (h : lookupSession p sessionID = some s0) :
    lookupSession (storeSession p sessionID s) sessionID = some s := by
  have hsome : (p.sessions.find? (fun e => e.1 == sessionID)).isSome := by
    unfold lookupSession at h
    cases hf : p.sessions.find? (fun e => e.1 == sessionID) with
    | none => rw [hf] at h; simp at h
    | some e => simp [hf]
  unfold lookupSession storeSession
  rw [find?_store p.sessions sessionID s hsome]
  rfl

/-- `Download` on a ready session, without cancellation: every track is
transformed by `applyQueue`, exactly the selected matched links are enqueued
in order, the success count is added to the `queued` counter, and the session
finishes in `StatusDone` with no error. -/
lemma Download_ready_eq (addq : String → Int → Bool) (p : Pipeline)
    (sessionID : String) (session : Session)
    (h1 : lookupSession p sessionID = some session)
    (h2 : session.status = StatusReady) :
    Download addq noCancel p sessionID =
      (storeSession p sessionID
        { session with
          status := StatusDone,
          tracks := session.tracks.map (applyQueue addq session.bitrate),
          progress := { session.progress with
            queued := session.progress.queued +
              queuedDelta addq session.bitrate session.tracks } },
       selectedMatchedLinks session.tracks, none) := by
  have hloop := downloadLoop_no_cancel addq session.tracks 0
    ({ session with status := StatusDownloading }) rfl
  rw [Download, h1]
  simp only [h2, ne_eq, not_true, if_neg (by simp [h2] : ¬StatusReady ≠ StatusReady)]
  have htracks : ({ session with status := StatusDownloading } : Session).tracks
      = session.tracks := rfl
  rw [htracks] at hloop ⊢
  rw [hloop]
  simp

/-! ### Evaluation of the concrete manual re-search scenario -/

lemma sessionReadyNF_eq : sessionReadyNF = sessionNFLit := by decide

lemma confAB : calculateConfidence "a" "b" "a" "b" = 100 := by
  have h1 : normStr "a" = ['a'] := by decide
  have h2 : normStr "b" = ['b'] := by decide
  rw [calculateConfidence, h1, h2]
  norm_num [similarity, goTrunc]

lemma lookupNF : lookupSession pipelineNF "s" = some sessionNFLit := by decide

lemma sessionAfterSearch_eq : sessionAfterSearch = some sessionSearchedLit := by
  unfold sessionAfterSearch searchOutcome
  rw [SearchTrack, lookupNF]
  simp only [sessionNFLit, trackNFLit, dxAB, confAB]
  norm_num [matchAB, navNone, pipelineNF, confAB, updateProgressForStatusChange,
    setTrack, storeSession, lookupSession, sessionSearchedLit, trackFoundLit,
    TrackNotFound, TrackFound, TrackSkipped, TrackNeedsReview, StatusReady,
    List.find?, sessionReadyNF_eq, sessionNFLit, trackNFLit]
  decide

/-! ### Claim theorems -/

/-- C1: the claim reads — when a `not_found` track gains a match scoring at
or above the threshold through `SearchTrack`, the track becomes `found` with
`selected = true`, `Progress.NotFound` is decremented, **and
`Progress.Selected` is incremented**.  Evaluating the embedded code on
exactly that input (a ready session holding one `not_found` track, a manual
search that returns a perfect match of confidence 100 ≥ 70): the track does
become `found`/selected and `not_found` drops from 1 to 0, but
`Progress.Selected` stays 0 — `SearchTrack` passes `wasSelected = false` and
`updateProgressForStatusChange` never increments the `selected` counter, so
the claimed increment does not happen. -/
theorem C1_searchTrack_selected_counter_not_incremented :
    sessionReadyNF.status = StatusReady ∧
    sessionReadyNF.tracks.map (fun t => (t.status, t.selected)) = [(TrackNotFound, false)] ∧
    sessionReadyNF.progress.notFound = 1 ∧
    sessionReadyNF.progress.selected = 0 ∧
    (sessionAfterSearch.map fun s =>
      (s.tracks.map fun t => (t.status, t.selected, t.confidence),
       s.progress.notFound, s.progress.selected))
      = some ([(TrackFound, true, 100)], 0, 0) := by
  refine ⟨by decide, by decide, by decide, by decide, ?_⟩
  rw [sessionAfterSearch_eq]
  decide

/-- C2: the claim reads — in every state reached by pipeline operations,
`Progress.Selected` equals the number of tracks with `selected = true`.
The state reached by the analysis workflow (`run`) followed by one
successful `SearchTrack` violates it: the counter is 0 while one track is
selected. -/
theorem C2_selected_invariant_violated :
    (sessionAfterSearch.map fun s => (s.progress.selected, countSelected s.tracks))
      = some (0, 1) := by
  rw [sessionAfterSearch_eq]
  decide

/-- C3: for every ready session, `Download` iterates the tracks in index
order, skips every track that is not selected or has no match, calls
`AddToQueue` for each remaining track (their links, in order), marks the
track with the wire string "queued" (`TrackDownloaded`) on success and
"error" on failure, counts successes in `Progress.Queued`, and leaves the
session in `StatusDone`. -/
theorem C3_download_ready_spec (addq : String → Int → Bool) (p : Pipeline)
    (sessionID : String) (session : Session)
    (h1 : lookupSession p sessionID = some session)
    (h2 : session.status = StatusReady) :
    TrackDownloaded = "queued" ∧
    Download addq noCancel p sessionID =
      (storeSession p sessionID
        { session with
          status := StatusDone,
          tracks := session.tracks.map (applyQueue addq session.bitrate),
          progress := { session.progress with
            queued := session.progress.queued +
              queuedDelta addq session.bitrate session.tracks } },
       selectedMatchedLinks session.tracks, none) :=
  ⟨rfl, Download_ready_eq addq p sessionID session h1 h2⟩

/-- Witness for C3 on a concrete ready session with one selected matched
track and one unselected matchless track. -/
theorem C3_download_ready_spec_witness :
    Download addqT noCancel pipelineMix "s" =
      (storeSession pipelineMix "s"
        { sessionMix with
          status := StatusDone,
          tracks := sessionMix.tracks.map (applyQueue addqT sessionMix.bitrate),
          progress := { sessionMix.progress with
            queued := sessionMix.progress.queued +
              queuedDelta addqT sessionMix.bitrate sessionMix.tracks } },
       selectedMatchedLinks sessionMix.tracks, none) :=
  (C3_download_ready_spec addqT pipelineMix "s" sessionMix (by decide) (by decide)).2

/-- C7: `Parse` maps each of the six Scenario E titles to exactly the stated
(artist, song) pairs. -/
theorem C7_parse_scenario_e :
    Parse "The Weeknd - Blinding Lights (Official Video)" = ("The Weeknd", "Blinding Lights") ∧
    Parse "Lovely by Billie Eilish" = ("Billie Eilish", "Lovely") ∧
    Parse "Eminem \"Lose Yourself\"" = ("Eminem", "Lose Yourself") ∧
    Parse "Dua Lipa - Levitating - Topic" = ("Dua Lipa", "Levitating") ∧
    Parse "Post Malone - Sunflower ft. Swae Lee" = ("Post Malone", "Sunflower feat. Swae Lee") ∧
    Parse "Wonderwall" = ("", "Wonderwall") := by
  refine ⟨?_, ?_, ?_, ?_, ?_, ?_⟩ <;> decide

/-- C9: `SetTrackSelected` imposes no precondition on the track's status or
match — for a ready session and in-range index it succeeds even for a
`not_found`/`skipped` track without a match; and the download loop skips
every track without a match: the `AddToQueue` calls of a subsequent
`Download` are exactly the links of the selected tracks that do have one. -/
theorem C9_setTrackSelected_unconditional (p : Pipeline) (sessionID : String)
    (session : Session) (i : Int)
    (h1 : lookupSession p sessionID = some session)
    (h2 : session.status = StatusReady)
    (h3 : 0 ≤ i) (h4 : i < (session.tracks.length : Int)) :
    ∃ p1, SetTrackSelected p sessionID i true = .ok p1 ∧
      ∀ (addq : String → Int → Bool) (s1 : Session),
        lookupSession p1 sessionID = some s1 →
        (Download addq noCancel p1 sessionID).2.1 = selectedMatchedLinks s1.tracks := by
  have hlt : i.toNat < session.tracks.length := by omega
  obtain ⟨track, htr⟩ : ∃ t, session.tracks.get? i.toNat = some t := by
    cases hg : session.tracks.get? i.toNat with
    | none => exact absurd (List.get?_eq_none.mp hg) (by omega)
    | some t => exact ⟨t, rfl⟩
  rw [SetTrackSelected, h1]
  simp only [h2, ne_eq, not_true, if_neg (by simp [h2] : ¬StatusReady ≠ StatusReady),
    if_neg (by omega : ¬(i < 0 ∨ (session.tracks.length : Int) ≤ i)), htr]
  by_cases hsel : track.selected = true
  · rw [if_pos hsel]
    refine ⟨p, rfl, ?_⟩
    intro addq s1 hs1
    rw [h1] at hs1
    cases hs1
    rw [Download_ready_eq addq p sessionID session h1 h2]
  · rw [if_neg hsel]
    refine ⟨_, rfl, ?_⟩
    intro addq s1 hs1
    have hstat : s1.status = StatusReady := by
      rw [lookupSession_store p sessionID _ session h1] at hs1
      cases hs1
      rfl
    rw [Download_ready_eq addq _ sessionID s1 hs1 hstat]

/-- Witness for C9: in the concrete ready session, index 1 holds an
unselected `not_found` track without a match; selecting it succeeds. -/
theorem C9_setTrackSelected_unconditional_witness :
    ∃ p1, SetTrackSelected pipelineMix "s" 1 true = .ok p1 ∧
      ∀ (addq : String → Int → Bool) (s1 : Session),
        lookupSession p1 "s" = some s1 →
        (Download addq noCancel p1 "s").2.1 = selectedMatchedLinks s1.tracks :=
  C9_setTrackSelected_unconditional pipelineMix "s" sessionMix 1
    (by decide) (by decide) (by decide) (by decide)

/-- C4 (counterexample): the claim says cancelling the caller's context
never cancels the session's analysis context.  With the caller's context
owning handle 0 and the SessionControl's fresh handle being 1, invoking
handle 0 alone makes the session context done — `context.WithCancel`
derives the session context from the caller's instead of detaching it. -/
theorem C4_not_detached_counterexample :
    ctxDone (fun h => h == 0) (analyzeSessionCtx [0] 1) = true ∧
    (fun h : Nat => h == 0) 1 = false := by
  constructor <;> rfl

/-- C4 (amended): `Analyze` wraps the caller's context with
`context.WithCancel`, so the session context is done exactly when the
caller's context is cancelled **or** the SessionControl's own handle is —
cancelling the caller's context does propagate to the session (the
HTTP-request independence observed in practice comes from the handlers
passing `context.Background()` to `Analyze`, not from any detaching). -/
theorem C4_analyze_ctx_derived (callerCtx : GoContext) (handle : Nat)
    (cancelled : Nat → Bool) :
    ctxDone cancelled (analyzeSessionCtx callerCtx handle) =
      (ctxDone cancelled callerCtx || cancelled handle) := by
  simp [ctxDone, analyzeSessionCtx, withCancel]

/-- C5: for a session in an active phase, `PauseSession` followed by the
worker's checkpoint observing the signal, then `ResumeSession` and the
wake-up of the blocked checkpoint, restores the session status to exactly
the pre-pause value: the checkpoint sets `paused` on the pause signal and
sets the status back to the `previousStatus` argument on the resume
signal. -/
theorem C5_pause_resume_restores_status (s : Session) (c : SessionControl)
    (prev : String) (hprev : s.status = prev)
    (hactive : s.status = StatusFetching ∨ s.status = StatusParsing ∨
      s.status = StatusSearching ∨ s.status = StatusChecking ∨
      s.status = StatusDownloading)
    (hnc : c.canceled = false) :
    ∃ c1, PauseSession s c = .ok c1 ∧
      checkpointEnter c1 s =
        .paused { s with status := StatusPaused } { c1 with pauseCh := false } ∧
      ∃ c2, ResumeSession { s with status := StatusPaused } { c1 with pauseCh := false }
          = .ok c2 ∧
        checkpointWake c2 { s with status := StatusPaused } prev =
          .proceed s { c2 with resumeCh := false } := by
  subst hprev
  refine ⟨{ c with pauseCh := true }, ?_, ?_,
    { c with pauseCh := false, resumeCh := true }, ?_, ?_⟩
  · rw [PauseSession, if_pos hactive]
  · simp [checkpointEnter, hnc]
  · simp [ResumeSession]
  · simp [checkpointWake, hnc]

/-- Witness for C5 on a concrete searching session with an idle control. -/
theorem C5_pause_resume_restores_status_witness :
    ∃ c1, PauseSession { sessionNFLit with status := StatusSearching } ⟨false, false, false⟩
        = .ok c1 ∧
      checkpointEnter c1 { sessionNFLit with status := StatusSearching } =
        .paused { sessionNFLit with status := StatusPaused } { c1 with pauseCh := false } ∧
      ∃ c2, ResumeSession { sessionNFLit with status := StatusPaused }
          { c1 with pauseCh := false } = .ok c2 ∧
        checkpointWake c2 { sessionNFLit with status := StatusPaused } StatusSearching =
          .proceed { sessionNFLit with status := StatusSearching }
            { c2 with resumeCh := false } :=
  C5_pause_resume_restores_status { sessionNFLit with status := StatusSearching }
    ⟨false, false, false⟩ StatusSearching rfl (by decide) rfl

/-- A sticky decoder error makes the parse loop spin for any fuel. -/
lemma parseDecodeLoop_sticky : ∀ (fuel : Nat) (d : DecState) (acc : List PlaylistEntry),
    d.sticky = true → parseDecodeLoop fuel d acc = none
  | 0, _, _, _ => rfl
  | fuel + 1, d, acc, h => by
    rw [parseDecodeLoop]
    simp only [decodeStep, h, if_pos]
    exact parseDecodeLoop_sticky fuel d acc h

/-- C8: the claim says malformed JSON lines in yt-dlp's output are skipped
and the call succeeds whenever at least one entry parses.  That holds for
lines that are well-formed JSON failing to unmarshal (second conjunct), but
a syntax-malformed line makes `json.Decoder`'s error sticky, and the loop's
`continue` then never advances: `runYtdlp` does not terminate for any
amount of fuel (first conjunct) instead of returning the parsed entries. -/
theorem C8_runYtdlp_hangs_on_syntax_error :
    (∀ (fuel : Nat) (e : PlaylistEntry),
        runYtdlp false [.synBad, .okEntry e] fuel = none) ∧
    (∀ e : PlaylistEntry, runYtdlp true [.badValue, .okEntry e] 4 = some (.ok [e])) := by
  constructor
  · intro fuel e
    cases fuel with
    | zero => rfl
    | succ n =>
      have hloop : parseDecodeLoop (n + 1) ⟨[.synBad, .okEntry e], false⟩ [] = none := by
        rw [parseDecodeLoop]
        simp only [decodeStep]
        exact parseDecodeLoop_sticky n _ _ rfl
      rw [runYtdlp, hloop]
  · intro e
    rfl

/-- C10 (counterexample): the claim says a session cancelled via
`CancelSession` stays `canceled` forever.  Two interleavings of the
download machine refute it, each with one unselected track.  (a) Closing
write: the worker passes the only checkpoint and the loop body, the full
`CancelSession` call then lands (status becomes `canceled`) — and the
worker's final unconditional write sets the status to `done`.  (b) Stale
guard read: `CancelSession` invokes the cancel handle (line 382) but has
not yet written `canceled` (line 391); the worker's unlocked guard read at
the checkpoint (line 441) therefore sees the stale `downloading` status;
`CancelSession` then writes `canceled`, and the worker's pending `setError`
overwrites it with `error` / message `"canceled"`. -/
theorem C10_canceled_overwritten_counterexample :
    ((dlRun addqT [.worker, .worker, .cancelEvt, .cancelEvt]
          (dlStart sessionNFLit)).session.status = StatusCanceled ∧
     (dlRun addqT [.worker, .worker, .cancelEvt, .cancelEvt, .worker]
          (dlStart sessionNFLit)).session.status = StatusDone) ∧
    ((dlRun addqT [.cancelEvt, .worker, .cancelEvt]
          (dlStart sessionNFLit)).session.status = StatusCanceled ∧
     (dlRun addqT [.cancelEvt, .worker, .cancelEvt, .worker]
          (dlStart sessionNFLit)).session.status = StatusError ∧
     (dlRun addqT [.cancelEvt, .worker, .cancelEvt, .worker]
          (dlStart sessionNFLit)).session.error = "canceled") := by
  refine ⟨⟨?_, ?_⟩, ?_, ?_, ?_⟩ <;> rfl

/-- C10 (amended): what the guard of line 441 does guarantee is only this —
when the worker's unlocked guard read itself observes `canceled`, the
worker skips `setError` and exits without writing the session at all.  It
does not keep a cancelled session `canceled`: the counterexample shows the
closing `done` write and a stale guard read both overwriting `canceled`. -/
theorem C10_worker_exit_when_guard_reads_canceled (addq : String → Int → Bool)
    (st : DlState) (i : Nat) (h1 : st.phase = .loopAt i)
    (h2 : st.ctrl.canceled = true) (h3 : st.session.status = StatusCanceled) :
    dlWorkerStep addq st = { st with phase := .exited } := by
  obtain ⟨s, c, ph, pc⟩ := st
  simp only at h1 h2 h3
  subst h1
  simp [dlWorkerStep, h2, h3]

/-- Witness for C10's amended statement at a concrete cancelled state. -/
theorem C10_worker_exit_when_guard_reads_canceled_witness :
    dlWorkerStep addqT
        ⟨{ sessionNFLit with status := StatusCanceled }, ⟨true, false, false⟩,
          .loopAt 0, .finished⟩ =
      ⟨{ sessionNFLit with status := StatusCanceled }, ⟨true, false, false⟩,
        .exited, .finished⟩ :=
  C10_worker_exit_when_guard_reads_canceled addqT
    ⟨{ sessionNFLit with status := StatusCanceled }, ⟨true, false, false⟩,
      .loopAt 0, .finished⟩ 0
    rfl rfl rfl

end YtToDeemix
